import Mathlib

/-!
Verification of the Guardian crawler (`guardian_crawler.py`, `run_crawler.py`).

The crawler is embedded shallowly: pure Python helpers (`is_valid_url`,
`is_author_only`, `parse_date`, `is_within_date_range`, `save_results`) become
Lean functions on strings and a record type `PyDatetime` modelling
`datetime.datetime`; the stateful traversal (`crawl_page`,
`handle_pagination`, `explore_archives`) becomes explicit state passing over a
`CState` (the crawler's `self.posts` / `self.visited_urls`), with the external
renderer abstracted as a map from URLs to the DOM query results the source
reads (`PageData`).  Recursion through `handle_pagination` is bounded by an
explicit fuel parameter standing for the Python call stack.
-/

namespace Guardian

/-! ### Python string primitives -/

/-- The characters `str.strip()` / `str.split()` treat as whitespace
(ASCII subset, the only ones arising here). -/
def pySpace (c : Char) : Bool :=
  c = ' ' || c = '\t' || c = '\n' || c = '\r' || c = '\x0b' || c = '\x0c'

/-- `str.strip()` on the underlying character list. -/
def stripList (cs : List Char) : List Char :=
  ((cs.dropWhile pySpace).reverse.dropWhile pySpace).reverse

/-- `str.strip()`. -/
def pyStrip (s : String) : String := ⟨stripList s.data⟩

/-- `str.lower()` (ASCII). -/
def lowerStr (s : String) : String := ⟨s.data.map Char.toLower⟩

/-- Whether the first character list is an initial segment of the second. -/
def isPreOf : List Char → List Char → Bool
  | [], _ => true
  | _ :: _, [] => false
  | a :: as, b :: bs => a = b && isPreOf as bs

/-- Index of the first occurrence of `pat` in `cs`, if any. -/
def findSub (pat : List Char) : List Char → Option Nat
  | [] => if pat = [] then some 0 else none
  | c :: cs =>
    if isPreOf pat (c :: cs) then some 0
    else (findSub pat cs).map (· + 1)

/-- Python's `pat in s` substring test. -/
def strContains (s pat : String) : Bool := (findSub pat.data s.data).isSome

/-- Auxiliary for `str.split()`: split a character list on whitespace runs,
accumulating the current word reversed. -/
def splitWSAux : List Char → List Char → List (List Char)
  | [], acc => if acc = [] then [] else [acc.reverse]
  | c :: cs, acc =>
    if pySpace c then
      if acc = [] then splitWSAux cs [] else acc.reverse :: splitWSAux cs []
    else splitWSAux cs (c :: acc)

/-- `str.split()` with no argument: split on whitespace runs, no empty words. -/
def pySplit (s : String) : List String := (splitWSAux s.data []).map String.mk

/-- `str.isdigit()` (ASCII digits). -/
def pyIsdigit (s : String) : Bool := s.data ≠ [] && s.data.all Char.isDigit

/-- `str.isalpha()` (ASCII letters). -/
def pyIsalpha (s : String) : Bool := s.data ≠ [] && s.data.all Char.isAlpha

/-- Auxiliary for `str.istitle()`: `prevCased` records whether the previous
character was cased, `seenCased` whether any cased character occurred. -/
def istitleAux : List Char → Bool → Bool → Bool
  | [], _, seenCased => seenCased
  | c :: cs, prevCased, seenCased =>
    if c.isUpper then
      if prevCased then false else istitleAux cs true true
    else if c.isLower then
      if prevCased then istitleAux cs true true else false
    else istitleAux cs false seenCased

/-- `str.istitle()` (ASCII): uppercase letters only at the start of cased
runs, lowercase only inside them, and at least one cased character. -/
def pyIstitle (s : String) : Bool := istitleAux s.data false false

/-- Lexicographic comparison of character lists (Python string `<=`). -/
def listLexLE : List Char → List Char → Bool
  | [], _ => true
  | _ :: _, [] => false
  | a :: as, b :: bs => if a = b then listLexLE as bs else decide (a < b)

/-- Python string `<=` (code-point lexicographic). -/
def strLE (a b : String) : Bool := listLexLE a.data b.data

/-- Digits-to-number (`int(...)` on a digit string). -/
def digitsToNat (cs : List Char) : Nat :=
  cs.foldl (fun n c => n * 10 + (c.toNat - 48)) 0

/-! ### `datetime.datetime` model -/

/-- A Python `datetime.datetime` value: calendar fields plus an optional
UTC offset in minutes (`none` = naive datetime, i.e. `tzinfo is None`). -/
structure PyDatetime where
  year : Nat
  month : Nat
  day : Nat
  hour : Nat
  minute : Nat
  second : Nat
  micro : Nat
  tz : Option Int
deriving DecidableEq, Repr

/-- Gregorian leap year. -/
def isLeap (y : Nat) : Bool := (y % 4 = 0 && y % 100 ≠ 0) || y % 400 = 0

/-- Days in a month. -/
def daysInMonth (y m : Nat) : Nat :=
  if m = 2 then (if isLeap y then 29 else 28)
  else if m = 4 ∨ m = 6 ∨ m = 9 ∨ m = 11 then 30
  else 31

/-- `datetime` date-field validity (as validated by `fromisoformat` /
`strptime` before constructing a `datetime`). -/
def validYMD (y m d : Nat) : Bool :=
  decide (1 ≤ y ∧ y ≤ 9999 ∧ 1 ≤ m ∧ m ≤ 12 ∧ 1 ≤ d ∧ d ≤ daysInMonth y m)

/-- `datetime` time-field validity. -/
def validHMS (h mi s : Nat) : Bool := decide (h ≤ 23 ∧ mi ≤ 59 ∧ s ≤ 59)

/-- Comparison of two NAIVE `datetime` values: lexicographic on the calendar
and time fields (Python's `<=` restricted to naive operands).  This is only
one branch of the real comparison: Python raises `TypeError` on a
naive/aware mix and adjusts by the UTC offsets on an aware pair — that full
fallible comparison is `pyDtLE` below. -/
def dtLE (a b : PyDatetime) : Bool :=
  if a.year ≠ b.year then decide (a.year < b.year)
  else if a.month ≠ b.month then decide (a.month < b.month)
  else if a.day ≠ b.day then decide (a.day < b.day)
  else if a.hour ≠ b.hour then decide (a.hour < b.hour)
  else if a.minute ≠ b.minute then decide (a.minute < b.minute)
  else if a.second ≠ b.second then decide (a.second < b.second)
  else decide (a.micro ≤ b.micro)

/-- Days in the months before month `m` of year `y`. -/
def daysBeforeMonth (y m : Nat) : Nat :=
  ((List.range (m - 1)).map (fun i => daysInMonth y (i + 1))).sum

/-- `datetime.toordinal()`-style day count in the proleptic Gregorian
calendar. -/
def toOrdinal (d : PyDatetime) : Nat :=
  (d.year - 1) * 365 + (d.year - 1) / 4 - (d.year - 1) / 100 + (d.year - 1) / 400 +
    daysBeforeMonth d.year d.month + d.day

/-- Microseconds since the calendar origin, ignoring the offset. -/
def toAbsMicro (d : PyDatetime) : Int :=
  ((toOrdinal d * 86400 + d.hour * 3600 + d.minute * 60 + d.second : Nat) : Int) * 1000000
    + (d.micro : Int)

/-- Python's `<=` on `datetime` values, with its error path: a naive pair
compares field-wise, an aware pair compares on the UTC-adjusted timeline
(subtracting each side's offset), and a naive/aware mix raises `TypeError`,
modelled as `none`. -/
def pyDtLE (a b : PyDatetime) : Option Bool :=
  match a.tz, b.tz with
  | none, none => some (dtLE a b)
  | some oa, some ob =>
    some (decide (toAbsMicro a - oa * 60000000 ≤ toAbsMicro b - ob * 60000000))
  | _, _ => none

/-- `d - timedelta(seconds=1)`: decrement one second with calendar borrow
(microseconds unchanged). -/
def predSecond (d : PyDatetime) : PyDatetime :=
  if 0 < d.second then { d with second := d.second - 1 }
  else if 0 < d.minute then { d with minute := d.minute - 1, second := 59 }
  else if 0 < d.hour then { d with hour := d.hour - 1, minute := 59, second := 59 }
  else if 1 < d.day then { d with day := d.day - 1, hour := 23, minute := 59, second := 59 }
  else if 1 < d.month then
    { d with month := d.month - 1, day := daysInMonth d.year (d.month - 1),
             hour := 23, minute := 59, second := 59 }
  else
    { d with year := d.year - 1, month := 12, day := 31,
             hour := 23, minute := 59, second := 59 }

/-! ### Regex matchers for `parse_date`

Each of the crawler's concrete regular expressions is embedded as a matcher
`List Char → Option (List Char × List Char)` returning (matched text, rest of
input after that position); `reSearch` gives `re.search`'s leftmost-match
semantics by trying the matcher at every start position from the left. -/

/-- Consume one expected character. -/
def expectChar (c : Char) : List Char → Option (List Char)
  | [] => none
  | x :: xs => if x = c then some xs else none

/-- Consume exactly `n` digit characters, returning them and the rest. -/
def takeFixedDigits : Nat → List Char → Option (List Char × List Char)
  | 0, cs => some ([], cs)
  | _ + 1, [] => none
  | n + 1, c :: cs =>
    if c.isDigit then (takeFixedDigits n cs).map (fun p => (c :: p.1, p.2))
    else none

/-- Matcher for `\d{4}-\d{2}-\d{2}`. -/
def matchIsoDate (cs : List Char) : Option (List Char × List Char) := do
  let (y, r1) ← takeFixedDigits 4 cs
  let r2 ← expectChar '-' r1
  let (m, r3) ← takeFixedDigits 2 r2
  let r4 ← expectChar '-' r3
  let (d, r5) ← takeFixedDigits 2 r4
  some (y ++ '-' :: m ++ '-' :: d, r5)

/-- Matcher for the time tail `T\d{2}:\d{2}:\d{2}`. -/
def matchTimeTail (cs : List Char) : Option (List Char × List Char) := do
  let r1 ← expectChar 'T' cs
  let (h, r2) ← takeFixedDigits 2 r1
  let r3 ← expectChar ':' r2
  let (mi, r4) ← takeFixedDigits 2 r3
  let r5 ← expectChar ':' r4
  let (s, r6) ← takeFixedDigits 2 r5
  some ('T' :: h ++ ':' :: mi ++ ':' :: s, r6)

/-- Matcher for `\d{4}-\d{2}-\d{2}T\d{2}:\d{2}:\d{2}`. -/
def matchIsoDT (cs : List Char) : Option (List Char × List Char) := do
  let (d, r1) ← matchIsoDate cs
  let (t, r2) ← matchTimeTail r1
  some (d ++ t, r2)

/-- Matcher for `\d{4}-\d{2}-\d{2}T\d{2}:\d{2}:\d{2}\.\d+` (greedy fraction). -/
def matchIsoFrac (cs : List Char) : Option (List Char × List Char) := do
  let (dt, r1) ← matchIsoDT cs
  let r2 ← expectChar '.' r1
  let frac := r2.takeWhile Char.isDigit
  if frac = [] then none
  else some (dt ++ '.' :: frac, r2.drop frac.length)

/-- Matcher for `\d{4}-\d{2}-\d{2}T\d{2}:\d{2}:\d{2}Z`. -/
def matchIsoZ (cs : List Char) : Option (List Char × List Char) := do
  let (dt, r1) ← matchIsoDT cs
  let r2 ← expectChar 'Z' r1
  some (dt ++ ['Z'], r2)

/-- `re.search`: try the matcher at each start position, leftmost first
(none of the embedded patterns can match the empty string). -/
def reSearch (p : List Char → Option (List Char × List Char)) :
    List Char → Option (List Char)
  | [] => none
  | c :: cs =>
    match p (c :: cs) with
    | some (m, _) => some m
    | none => reSearch p cs

/-- `str.replace('Z', '+00:00')` (single-character pattern). -/
def replaceZ (cs : List Char) : List Char :=
  cs.foldr (fun c acc => (if c = 'Z' then "+00:00".data else [c]) ++ acc) []

/-! ### `datetime.fromisoformat` model

Models the stdlib parser on the shapes the crawler can feed it:
`YYYY-MM-DD`, optionally followed by a one-character separator and
`hh:mm:ss`, an optional `.fff`/`.ffffff` fraction and an optional `±HH:MM`
offset; field ranges are validated as the stdlib does. -/

def pyFromIso (s : String) : Option PyDatetime := do
  let cs := s.data
  let (y4, r1) ← takeFixedDigits 4 cs
  let r2 ← expectChar '-' r1
  let (m2, r3) ← takeFixedDigits 2 r2
  let r4 ← expectChar '-' r3
  let (d2, r5) ← takeFixedDigits 2 r4
  let y := digitsToNat y4
  let mo := digitsToNat m2
  let d := digitsToNat d2
  if !validYMD y mo d then none
  else match r5 with
  | [] => some ⟨y, mo, d, 0, 0, 0, 0, none⟩
  | _sep :: r6 => do
    let (h2, r7) ← takeFixedDigits 2 r6
    let r8 ← expectChar ':' r7
    let (mi2, r9) ← takeFixedDigits 2 r8
    let r10 ← expectChar ':' r9
    let (s2, r11) ← takeFixedDigits 2 r10
    let h := digitsToNat h2
    let mi := digitsToNat mi2
    let sec := digitsToNat s2
    if !validHMS h mi sec then none
    else do
      let (micro, r12) ←
        match r11 with
        | '.' :: rf =>
          let frac := rf.takeWhile Char.isDigit
          if frac.length = 3 then some (digitsToNat frac * 1000, rf.drop 3)
          else if frac.length = 6 then some (digitsToNat frac, rf.drop 6)
          else none
        | r => some (0, r)
      let (tz, r13) ←
        match r12 with
        | '+' :: rz => pyIsoOffset 1 rz
        | '-' :: rz => pyIsoOffset (-1) rz
        | r => some ((none : Option Int), r)
      if r13 = [] then some ⟨y, mo, d, h, mi, sec, micro, tz⟩ else none
where
  /-- Parse the `HH:MM` of a `±HH:MM` offset, as minutes with the given sign. -/
  pyIsoOffset (sign : Int) (cs : List Char) :
      Option (Option Int × List Char) := do
    let (oh, r1) ← takeFixedDigits 2 cs
    let r2 ← expectChar ':' r1
    let (om, r3) ← takeFixedDigits 2 r2
    some (some (sign * (digitsToNat oh * 60 + digitsToNat om)), r3)

/-! ### `datetime.strptime` model

A small engine for exactly the directives the crawler's format strings use
(`%a %b %B %d %m %Y %H %M %S %z` and literals; whitespace in a format matches
a nonempty whitespace run, literals match case-insensitively, and ordered
regex alternation is reproduced by keeping the candidate parses in
backtracking order and taking the first one that consumes the whole input). -/

/-- One token of a compiled format string. -/
inductive FmtTok where
  | lit (c : Char)
  | ws
  | dir (d : Char)
deriving DecidableEq, Repr

/-- Compile a format string to tokens. -/
def parseFmt : List Char → List FmtTok
  | [] => []
  | '%' :: d :: rest => .dir d :: parseFmt rest
  | ['%'] => [.lit '%']
  | c :: rest => (if pySpace c then .ws else .lit c) :: parseFmt rest

/-- Collapse adjacent whitespace tokens (a whitespace run in a Python format
becomes a single `\s+`). -/
def collapseWS : List FmtTok → List FmtTok
  | [] => []
  | FmtTok.ws :: rest =>
    match collapseWS rest with
    | FmtTok.ws :: r2 => FmtTok.ws :: r2
    | r => FmtTok.ws :: r
  | t :: rest => t :: collapseWS rest

/-- The fields a `strptime` match can bind (defaults are `strptime`'s:
1900-01-01 00:00:00, no offset). -/
structure TParts where
  Y : Option Nat := none
  m : Option Nat := none
  d : Option Nat := none
  H : Option Nat := none
  Mi : Option Nat := none
  S : Option Nat := none
  z : Option Int := none
deriving DecidableEq, Repr

/-- Read a two-digit number. -/
def twoDigitVal : List Char → Option (Nat × List Char)
  | a :: b :: rest =>
    if a.isDigit && b.isDigit then some ((a.toNat - 48) * 10 + (b.toNat - 48), rest)
    else none
  | _ => none

/-- Read a one-digit number. -/
def oneDigitVal : List Char → Option (Nat × List Char)
  | a :: rest => if a.isDigit then some (a.toNat - 48, rest) else none
  | _ => none

/-- Two-digit-first alternatives for a numeric directive, with the value
ranges of the stdlib's directive regexes. -/
def twoOneAlts (lo2 hi2 lo1 hi1 : Nat) (set : TParts → Nat → TParts)
    (p : TParts) (cs : List Char) : List (TParts × List Char) :=
  (match twoDigitVal cs with
   | some (v, rest) => if lo2 ≤ v ∧ v ≤ hi2 then [(set p v, rest)] else []
   | none => []) ++
  (match oneDigitVal cs with
   | some (v, rest) => if lo1 ≤ v ∧ v ≤ hi1 then [(set p v, rest)] else []
   | none => [])

/-- Case-insensitive name match: `nm` (already lowercase) against a lowered
view of the input. -/
def lowMatch (nm : List Char) (cs : List Char) : Option (List Char) :=
  if isPreOf nm (cs.map Char.toLower) then some (cs.drop nm.length) else none

def weekdayAbbrevs : List String := ["mon", "tue", "wed", "thu", "fri", "sat", "sun"]

def monthAbbrevs : List (String × Nat) :=
  [("jan", 1), ("feb", 2), ("mar", 3), ("apr", 4), ("may", 5), ("jun", 6),
   ("jul", 7), ("aug", 8), ("sep", 9), ("oct", 10), ("nov", 11), ("dec", 12)]

def monthFulls : List (String × Nat) :=
  [("january", 1), ("february", 2), ("march", 3), ("april", 4), ("may", 5),
   ("june", 6), ("july", 7), ("august", 8), ("september", 9), ("october", 10),
   ("november", 11), ("december", 12)]

/-- Alternatives for the `%z` directive: `Z`, or `±HH[:]MM`. -/
def zAlts (p : TParts) (cs : List Char) : List (TParts × List Char) :=
  match cs with
  | 'Z' :: rest => [({ p with z := some 0 }, rest)]
  | '+' :: rest => zOff 1 p rest
  | '-' :: rest => zOff (-1) p rest
  | _ => []
where
  /-- `HH[:]MM` after the sign, as minutes. -/
  zOff (sign : Int) (p : TParts) (cs : List Char) : List (TParts × List Char) :=
    match twoDigitVal cs with
    | none => []
    | some (hh, r1) =>
      let r2 := match r1 with
        | ':' :: t => t
        | t => t
      match twoDigitVal r2 with
      | none => []
      | some (mm, r3) => [({ p with z := some (sign * (hh * 60 + mm)) }, r3)]

/-- All parses of one directive at the current position, in the stdlib
regex's alternation order. -/
def dirAlts : Char → TParts → List Char → List (TParts × List Char)
  | 'Y', p, cs =>
    match takeFixedDigits 4 cs with
    | some (ds, rest) => [({ p with Y := some (digitsToNat ds) }, rest)]
    | none => []
  | 'd', p, cs => twoOneAlts 1 31 1 9 (fun q v => { q with d := some v }) p cs
  | 'm', p, cs => twoOneAlts 1 12 1 9 (fun q v => { q with m := some v }) p cs
  | 'H', p, cs => twoOneAlts 0 23 0 9 (fun q v => { q with H := some v }) p cs
  | 'M', p, cs => twoOneAlts 0 59 0 9 (fun q v => { q with Mi := some v }) p cs
  | 'S', p, cs => twoOneAlts 0 61 0 9 (fun q v => { q with S := some v }) p cs
  | 'a', p, cs =>
    weekdayAbbrevs.filterMap (fun nm => (lowMatch nm.data cs).map (fun rest => (p, rest)))
  | 'b', p, cs =>
    monthAbbrevs.filterMap
      (fun nv => (lowMatch nv.1.data cs).map (fun rest => ({ p with m := some nv.2 }, rest)))
  | 'B', p, cs =>
    monthFulls.filterMap
      (fun nv => (lowMatch nv.1.data cs).map (fun rest => ({ p with m := some nv.2 }, rest)))
  | 'z', p, cs => zAlts p cs
  | _, _, _ => []

/-- All parses of one token from each candidate state, preserving
backtracking order. -/
def tokAlts : FmtTok → TParts → List Char → List (TParts × List Char)
  | .ws, p, cs =>
    let k := (cs.takeWhile pySpace).length
    (List.range k).map (fun j => (p, cs.drop (k - j)))
  | .lit c, p, cs =>
    match cs with
    | [] => []
    | x :: xs => if x.toLower = c.toLower then [(p, xs)] else []
  | .dir d, p, cs => dirAlts d p cs

/-- Run a compiled format over the input: thread every candidate state
through the tokens and take the first full match. -/
def runFmt (fmt : List FmtTok) (cs : List Char) : Option TParts :=
  let final := fmt.foldl
    (fun sts t => (sts.map (fun s => tokAlts t s.1 s.2)).flatten)
    [(({} : TParts), cs)]
  (final.find? (fun s => s.2.isEmpty)).map (·.1)

/-- `datetime.strptime(s, fmt)` for the crawler's formats: full-string match,
then `datetime` construction with `strptime` defaults, validating the
calendar. -/
def pyStrptime (fmt s : String) : Option PyDatetime :=
  match runFmt (collapseWS (parseFmt fmt.data)) s.data with
  | none => none
  | some p =>
    let y := p.Y.getD 1900
    let mo := p.m.getD 1
    let d := p.d.getD 1
    let h := p.H.getD 0
    let mi := p.Mi.getD 0
    let sec := p.S.getD 0
    if validYMD y mo d && validHMS h mi sec then
      some ⟨y, mo, d, h, mi, sec, 0, p.z⟩
    else none

/-! ### `parse_date` -/

/-- The four ISO-shaped patterns of `parse_date`, in source order. -/
def iso_patterns : List (List Char → Option (List Char × List Char)) :=
  [matchIsoDT, matchIsoFrac, matchIsoZ, matchIsoDate]

/-- The parse attempted on an ISO-pattern match: `fromisoformat` with `Z`
replaced by `+00:00` when a `T` is present, else `strptime('%Y-%m-%d')`. -/
def isoAttempt (m : List Char) : Option PyDatetime :=
  if m.contains 'T' then
    if m.contains '.' then pyFromIso ⟨replaceZ m⟩
    else pyFromIso ⟨replaceZ m⟩
  else pyStrptime "%Y-%m-%d" ⟨m⟩

/-- The ISO stage of `parse_date`: first pattern whose leftmost match parses
wins; a failed parse falls through to the next pattern.  Also returns the
matched substring, for stating what was extracted. -/
def isoStageGo : List (List Char → Option (List Char × List Char)) →
    List Char → Option (String × PyDatetime)
  | [], _ => none
  | p :: ps, cs =>
    match reSearch p cs with
    | some m =>
      match isoAttempt m with
      | some d => some (⟨m⟩, d)
      | none => isoStageGo ps cs
    | none => isoStageGo ps cs

/-- The ISO stage over the full pattern list. -/
def isoStage (cs : List Char) : Option (String × PyDatetime) :=
  isoStageGo iso_patterns cs

/-- The explicit display formats of `parse_date`, in source order. -/
def display_formats : List String :=
  ["%a, %d %b %Y %H:%M:%S %z",
   "%Y-%m-%d",
   "%d/%m/%Y",
   "%m/%d/%Y",
   "%B %d, %Y",
   "%d %B %Y",
   "%b %d, %Y",
   "%d %b %Y",
   "%Y-%m-%d %H:%M:%S",
   "%d/%m/%Y %H:%M",
   "%m/%d/%Y %H:%M",
   "%a, %d %b %Y %H:%M:%S"]

/-- The display-format stage: first format that `strptime`-parses the whole
string. -/
def formatsStage (s : String) : Option PyDatetime :=
  display_formats.findSome? (fun fmt => pyStrptime fmt s)

/-- Matcher for `\d{1,2}/\d{1,2}/\d{4}` (greedy two-digit groups with
backtracking to one digit). -/
def matchSlashDate (cs : List Char) : Option (List Char × List Char) :=
  let step2 : List Char → List Char → Option (List Char × List Char) := fun a r1 => do
    let r2 ← expectChar '/' r1
    let fin : List Char → List Char → Option (List Char × List Char) := fun b r3 => do
      let r4 ← expectChar '/' r3
      let (y4, r5) ← takeFixedDigits 4 r4
      some (a ++ '/' :: b ++ '/' :: y4, r5)
    (do let (b, r3) ← takeFixedDigits 2 r2; fin b r3) <|>
    (do let (b, r3) ← takeFixedDigits 1 r2; fin b r3)
  (do let (a, r1) ← takeFixedDigits 2 cs; step2 a r1) <|>
  (do let (a, r1) ← takeFixedDigits 1 cs; step2 a r1)

/-- Matcher for `[A-Za-z]+ \d{1,2}, \d{4}`. -/
def matchMonthCommaDate (cs : List Char) : Option (List Char × List Char) := do
  let al := cs.takeWhile Char.isAlpha
  if al = [] then none
  else do
    let r1 ← expectChar ' ' (cs.drop al.length)
    let fin : List Char → List Char → Option (List Char × List Char) := fun d r2 => do
      let r3 ← expectChar ',' r2
      let r4 ← expectChar ' ' r3
      let (y4, r5) ← takeFixedDigits 4 r4
      some (al ++ ' ' :: d ++ ',' :: ' ' :: y4, r5)
    (do let (d, r2) ← takeFixedDigits 2 r1; fin d r2) <|>
    (do let (d, r2) ← takeFixedDigits 1 r1; fin d r2)

/-- Matcher for `\d{1,2} [A-Za-z]+ \d{4}`. -/
def matchDayMonthDate (cs : List Char) : Option (List Char × List Char) :=
  let fin : List Char → List Char → Option (List Char × List Char) := fun d r1 => do
    let r2 ← expectChar ' ' r1
    let al := r2.takeWhile Char.isAlpha
    if al = [] then none
    else do
      let r3 ← expectChar ' ' (r2.drop al.length)
      let (y4, r4) ← takeFixedDigits 4 r3
      some (d ++ ' ' :: al ++ ' ' :: y4, r4)
  (do let (d, r1) ← takeFixedDigits 2 cs; fin d r1) <|>
  (do let (d, r1) ← takeFixedDigits 1 cs; fin d r1)

/-- The regex-fallback stage's (pattern, format) pairs, in source order. -/
def date_patterns : List ((List Char → Option (List Char × List Char)) × String) :=
  [(matchIsoDate, "%Y-%m-%d"),
   (matchSlashDate, "%d/%m/%Y"),
   (matchMonthCommaDate, "%B %d, %Y"),
   (matchDayMonthDate, "%d %B %Y")]

/-- The regex-fallback stage: extract a date-shaped substring and `strptime`
it with the matching format; a failed parse falls through. -/
def regexStage : List ((List Char → Option (List Char × List Char)) × String) →
    List Char → Option PyDatetime
  | [], _ => none
  | (pm, fmt) :: rest, cs =>
    match reSearch pm cs with
    | some m =>
      match pyStrptime fmt ⟨m⟩ with
      | some d => some d
      | none => regexStage rest cs
    | none => regexStage rest cs

/-- `parse_date`: strip, then ISO stage, then the display formats, then the
regex fallback; any failure yields `None`. -/
def parse_date (s : String) : Option PyDatetime :=
  let cs := (pyStrip s).data
  match isoStage cs with
  | some (_, d) => some d
  | none =>
    match formatsStage ⟨cs⟩ with
    | some d => some d
    | none => regexStage date_patterns cs

/-! ### URLs -/

/-- `self.base_url`. -/
def base_url : String := "https://www.guardian.co.tt"

/-- Whether a reference starts with a `scheme:` part. -/
def hasScheme (cs : List Char) : Bool :=
  let al := cs.takeWhile Char.isAlpha
  al ≠ [] && (cs.drop al.length).head? = some ':'

/-- Models `urllib.parse.urljoin` for the crawler's fixed base URL (an origin
with empty path): absolute references and scheme-carrying pseudo-URLs are
returned unchanged, scheme-relative ones get the base's scheme, and
root-relative or relative paths are resolved against the origin. -/
def urljoin (base href : String) : String :=
  if href = "" then base
  else if hasScheme href.data then href
  else if isPreOf "//".data href.data then "https:" ++ href
  else if isPreOf "/".data href.data then base ++ href
  else base ++ "/" ++ href

/-- `urllib.parse.urlparse(u).netloc` for the URLs arising here: the text
between `"://"` and the next `/`, `?` or `#` (empty when there is no
`"://"`). -/
def netlocOf (u : String) : String :=
  match findSub "://".data u.data with
  | none => ""
  | some i => ⟨(u.data.drop (i + 3)).takeWhile (fun c => c ≠ '/' && c ≠ '?' && c ≠ '#')⟩

/-- The denylist of `is_valid_url`. -/
def excluded_patterns : List String :=
  ["/amember/", "/signup/", "facebook.com", "twitter.com", "mailto:",
   "javascript:", "/search?", "/tag/", "/category/", "/section-",
   "/live-stream/", "/traffic-cameras/", "/weather/", "undefined"]

/-- The allowlist of `is_valid_url`. -/
def valid_patterns : List String :=
  ["/news/", "/sports/", "/entertainment/", "/business/", "/article/",
   "/opinion/", "/features/", "-6.2."]

/-- `is_valid_url`: present and nonempty, host is the Guardian origin, no
denylisted substring, at least one allowlisted substring. -/
def is_valid_url (u : Option String) : Bool :=
  match u with
  | none => false
  | some url =>
    if url = "" then false
    else
      let netloc := netlocOf url
      if netloc ≠ "www.guardian.co.tt" && netloc ≠ "guardian.co.tt" then false
      else if excluded_patterns.any (fun p => strContains (lowerStr url) p) then false
      else valid_patterns.any (fun p => strContains (lowerStr url) p)

/-! ### `is_author_only` and the content filter -/

def author_indicators : List String := ["by ", "author:", "written by"]

/-- `is_author_only`: very short text containing an authorship marker, or at
most three words whose alphabetic ones are all title-case. -/
def is_author_only (content : String) : Bool :=
  let content_lower := pyStrip (lowerStr content)
  if content.length < 30 ∧
      author_indicators.any (fun ind => strContains content_lower ind) = true then
    true
  else
    let words := pySplit content
    if words.length ≤ 3 ∧ (words.filter pyIsalpha).all pyIstitle = true then true
    else false

/-- The acceptance test of the excerpt loop in `extract_post_data`: truthy,
trimmed length above 50 and not an author-only byline. -/
def contentOk (c : String) : Bool :=
  decide (c ≠ "" ∧ 50 < (pyStrip c).length ∧ is_author_only (pyStrip c) = false)

/-! ### Field extraction

The renderer is abstracted: an `Element` records, selector by selector in
source order, what each `query_selector` / `inner_text` / `get_attribute`
call would return (`none` = the selector matched nothing). -/

/-- A record, as produced by the extractors (the source's dict also carries a
`scraped_at` wall-clock stamp; it is constant within the modelled session and
carries no information, so it is omitted from the embedding). -/
structure Post where
  title : String
  url : String
  date : Option PyDatetime
  content : String
deriving DecidableEq, Repr

/-- A date-bearing sub-element: its `datetime` attribute and inner text. -/
structure DateEl where
  datetimeAttr : Option String
  text : String
deriving DecidableEq, Repr

/-- One listing element: the results of the title selectors, the
`query_selector('a')` href, the date selectors and the content selectors. -/
structure Element where
  titleTexts : List (Option String)
  anchorHref : Option (Option String)
  dateEls : List (Option DateEl)
  contentTexts : List (Option String)
deriving DecidableEq, Repr

/-- The title loop of `extract_post_data`: remember the last text found,
stop at the first truthy text with nonempty strip. -/
def titleLoop : List (Option String) → Option String → Option String
  | [], acc => acc
  | o :: rest, acc =>
    match o with
    | none => titleLoop rest acc
    | some t =>
      if t ≠ "" ∧ 0 < (pyStrip t).length then some t else titleLoop rest (some t)

/-- The page-metadata date loop (shared by both extractors): first truthy
`content` attribute that parses wins; failed parses fall through. -/
def metaDateLoop : List (Option String) → Option PyDatetime
  | [] => none
  | o :: rest =>
    match o with
    | none => metaDateLoop rest
    | some c =>
      if c ≠ "" then
        match parse_date c with
        | some d => some d
        | none => metaDateLoop rest
      else metaDateLoop rest

/-- The element-local date loop: per sub-element, `datetime` attribute first,
then visible text; first successful parse wins. -/
def elemDateLoop : List (Option DateEl) → Option PyDatetime
  | [] => none
  | o :: rest =>
    match o with
    | none => elemDateLoop rest
    | some de =>
      let viaText : Option PyDatetime :=
        if de.text ≠ "" then parse_date de.text else none
      match de.datetimeAttr with
      | some a =>
        if a ≠ "" then
          match parse_date a with
          | some d => some d
          | none =>
            match viaText with
            | some d => some d
            | none => elemDateLoop rest
        else
          match viaText with
          | some d => some d
          | none => elemDateLoop rest
      | none =>
        match viaText with
        | some d => some d
        | none => elemDateLoop rest

/-- The excerpt loop: remember the last text found, stop at the first
accepted snippet. -/
def contentLoop : List (Option String) → Option String → Option String
  | [], acc => acc
  | o :: rest, acc =>
    match o with
    | none => contentLoop rest acc
    | some c => if contentOk c then some c else contentLoop rest (some c)

/-- `extract_post_data`: title chain, anchor URL resolved and validated,
page-metadata then element-local date, excerpt chain. -/
def extract_post_data (pageMeta : List (Option String)) (el : Element) : Option Post :=
  match titleLoop el.titleTexts none with
  | none => none
  | some t =>
    if t = "" then none
    else
      let url : Option String :=
        match el.anchorHref with
        | none => none
        | some none => none
        | some (some href) => if href ≠ "" then some (urljoin base_url href) else none
      if !is_valid_url url then none
      else
        let date : Option PyDatetime :=
          match metaDateLoop pageMeta with
          | some d => some d
          | none => elemDateLoop el.dateEls
        let content := contentLoop el.contentTexts none
        some { title := pyStrip t,
               url := url.getD "",
               date := date,
               content := pyStrip (content.getD "") }

/-- `extract_posts`: run `extract_post_data` over each selector's elements in
order, appending records not yet in the page's candidate list. -/
def extract_posts (pageMeta : List (Option String))
    (elementsPerSelector : List (List Element)) : List Post :=
  elementsPerSelector.foldl
    (fun acc els =>
      els.foldl
        (fun acc2 el =>
          match extract_post_data pageMeta el with
          | none => acc2
          | some p => if p ∈ acc2 then acc2 else acc2 ++ [p])
        acc)
    []

/-- The page-level inputs of `extract_article_from_page`: the article title
selectors' texts and, per content selector, the paragraph texts it matches. -/
structure ArticleInput where
  titleTexts : List (Option String)
  paragraphsPerSelector : List (List String)
deriving DecidableEq, Repr

/-- The article title loop: like `titleLoop` but requiring trimmed length
above 10. -/
def articleTitleLoop : List (Option String) → Option String → Option String
  | [], acc => acc
  | o :: rest, acc =>
    match o with
    | none => articleTitleLoop rest acc
    | some t =>
      if t ≠ "" ∧ 10 < (pyStrip t).length then some t
      else articleTitleLoop rest (some t)

/-- The paragraph loop: per selector take the first three paragraphs' trimmed
texts longer than 30, stopping at the first selector after which the
accumulator is nonempty. -/
def parasLoop : List (List String) → List String → List String
  | [], acc => acc
  | ps :: rest, acc =>
    let acc2 := acc ++ (ps.take 3).filterMap
      (fun tx => if tx ≠ "" ∧ 30 < (pyStrip tx).length then some (pyStrip tx) else none)
    if acc2 ≠ [] then acc2 else parasLoop rest acc2

/-- `extract_article_from_page`: validity check on the page URL, article
title chain, page-metadata date, joined and capped excerpt.  The produced
record's `url` is the page URL itself. -/
def extract_article_from_page (url : String) (pageMeta : List (Option String))
    (ai : ArticleInput) : Option Post :=
  if !is_valid_url (some url) then none
  else
    match articleTitleLoop ai.titleTexts none with
    | none => none
    | some t =>
      if t = "" then none
      else
        let date := metaDateLoop pageMeta
        let paras := parasLoop ai.paragraphsPerSelector []
        let content := if paras ≠ [] then String.intercalate " " paras else ""
        let capped := if 500 < content.length then ⟨content.data.take 500⟩ ++ "..." else content
        some { title := pyStrip t, url := url, date := date, content := capped }

/-! ### Date-range filter -/

/-- The session's fixed window (`now - 15 years`, `now`). -/
structure Config where
  start_date : PyDatetime
  end_date : PyDatetime

/-- `is_within_date_range`: absent dates pass (`datetime` values are always
truthy, so `not date` is exactly "absent"); present ones are compared with
the chained `start_date <= date <= end_date`, whose first comparison
short-circuits on `False` and whose `TypeError` — raised when `date` is
offset-aware, since the bounds are naive `datetime.now()` values — escapes
the function (`none`); the caller's blanket `except` then abandons the
page. -/
def is_within_date_range (cfg : Config) (date : Option PyDatetime) : Option Bool :=
  match date with
  | none => some true
  | some d =>
    match pyDtLE cfg.start_date d with
    | none => none
    | some false => some false
    | some true => pyDtLE d cfg.end_date

/-! ### Traversal

`CState` is the crawler's mutable session state; a `PageData` is everything
the renderer would answer about one loaded page; the site is a partial map
from URLs to pages (`none` = navigation error, caught by `crawl_page`'s
`except`).  The recursion of `crawl_page`/`handle_pagination` is bounded by
fuel standing for the Python call stack; each `crawl_page` call contributes
its URL to a visit trace. -/

/-- One candidate pagination link: its `href` attribute and link text. -/
structure PLink where
  href : Option String
  text : String
deriving DecidableEq, Repr

/-- One loaded page, as the DOM queries of the source see it. -/
structure PageData where
  pageMeta : List (Option String)
  articleInput : ArticleInput
  listingEls : List (List Element)
  pagLinks : List (List PLink)
  pageHrefLinks : List (Option String)
deriving DecidableEq, Repr

/-- The crawler's mutable state: `self.posts` and `self.visited_urls` (the
set is modelled as a list with membership, insertion is `cons`). -/
structure CState where
  posts : List Post
  visited : List String
deriving DecidableEq, Repr

/-- The semantic-pass acceptance test: truthy `href`, and link text
containing `next`/`more` or a purely numeric `href`. -/
def pagAccept (l : PLink) : Bool :=
  match l.href with
  | none => false
  | some h =>
    h ≠ "" && (strContains (lowerStr l.text) "next" ||
               strContains (lowerStr l.text) "more" || pyIsdigit h)

/-- Scan one selector's links: the first accepted link whose resolved URL is
unvisited is followed; accepted-but-visited links are skipped. -/
def findNextLinkInSel (visited : List String) : List PLink → Option String
  | [] => none
  | l :: rest =>
    if pagAccept l then
      let nu := urljoin base_url (l.href.getD "")
      if nu ∉ visited then some nu else findNextLinkInSel visited rest
    else findNextLinkInSel visited rest

/-- Scan the pagination selectors in order for a followable "next" URL. -/
def findNextLink (visited : List String) : List (List PLink) → Option String
  | [] => none
  | sel :: rest =>
    match findNextLinkInSel visited sel with
    | some u => some u
    | none => findNextLink visited rest

/-- Try `page[=/](\d+)` at the current position (greedy digits). -/
def pageNumAt (cs : List Char) : Option Nat :=
  if isPreOf "page".data cs then
    match cs.drop 4 with
    | c :: rest =>
      if c = '=' ∨ c = '/' then
        let ds := rest.takeWhile Char.isDigit
        if ds ≠ [] then some (digitsToNat ds) else none
      else none
    | [] => none
  else none

/-- `re.search(r'page[=/](\d+)', href)`: leftmost occurrence. -/
def pageNumSearch : List Char → Option Nat
  | [] => none
  | c :: cs =>
    match pageNumAt (c :: cs) with
    | some n => some n
    | none => pageNumSearch cs

/-- The numbered pass's `(page number, absolute URL)` pairs. -/
def numberedPairs (links : List (Option String)) : List (Nat × String) :=
  links.filterMap
    (fun h =>
      match h with
      | none => none
      | some href => (pageNumSearch href.data).map (fun n => (n, urljoin base_url href)))

/-- Python tuple `<=` on `(int, str)` pairs. -/
def pairLE (a b : Nat × String) : Bool :=
  decide (a.1 < b.1) || (decide (a.1 = b.1) && strLE a.2 b.2)

/-- Stable insertion into a sorted list (new element after earlier equals). -/
def insertLE (le : α → α → Bool) (x : α) : List α → List α
  | [] => [x]
  | y :: ys => if le x y then x :: y :: ys else y :: insertLE le x ys

/-- Stable ascending sort (Python `list.sort`). -/
def insSort (le : α → α → Bool) : List α → List α
  | [] => []
  | x :: xs => insertLE le x (insSort le xs)

/-- The offer loop of `crawl_page` over the extracted candidate records:
fresh truthy URLs are marked visited, then in-range records are appended;
`added` counts `posts_added`.  A `TypeError` from the range check (an
offset-aware date) aborts the loop — and the rest of `crawl_page` — with the
state as mutated so far (the URL was already marked visited). -/
def offerLoop (cfg : Config) : CState → Nat → List Post → Except CState (CState × Nat)
  | st, added, [] => .ok (st, added)
  | st, added, p :: ps =>
    if p.url ≠ "" ∧ p.url ∉ st.visited then
      let st1 : CState := { st with visited := p.url :: st.visited }
      match is_within_date_range cfg p.date with
      | some true => offerLoop cfg { st1 with posts := st1.posts ++ [p] } (added + 1) ps
      | some false => offerLoop cfg st1 added ps
      | none => .error st1
    else offerLoop cfg st added ps

/-- The offer loop from `posts_added = 0`. -/
def offerPosts (cfg : Config) (st : CState) (ps : List Post) : Except CState (CState × Nat) :=
  offerLoop cfg st 0 ps

/-- The numbered pass's visiting loop over the sorted `(number, URL)` pairs,
parameterised by the recursive page visit; skips visited URLs, accumulating
the visit trace. -/
def numberedLoop (recur : CState → String → CState × List String) :
    CState → List String → List (Nat × String) → CState × List String
  | st, tr, [] => (st, tr)
  | st, tr, pr :: rest =>
    if pr.2 ∉ st.visited then
      let r := recur st pr.2
      numberedLoop recur r.1 (tr ++ r.2) rest
    else numberedLoop recur st tr rest

/-- `handle_pagination`, parameterised by the recursive page visit: the
semantic pass follows the first accepted unvisited link and stops; otherwise
the numbered pass visits every unvisited numbered page in sorted order.
Returns the new state, the visit trace and the boolean the source returns. -/
def handle_pagination (recur : CState → String → CState × List String)
    (st : CState) (pg : PageData) : CState × List String × Bool :=
  match findNextLink st.visited pg.pagLinks with
  | some nextUrl =>
    let r := recur st nextUrl
    (r.1, r.2, true)
  | none =>
    let pairs := insSort pairLE (numberedPairs pg.pageHrefLinks)
    let folded := numberedLoop recur st [] pairs
    (folded.1, folded.2, false)

/-- The listing phase of `crawl_page`: extract the page's candidate records,
run the offer loop, and look for pagination when the page yielded any
candidates (`posts_added > 0 or len(posts) > 0`). -/
def crawlListing (cfg : Config) (recur : CState → String → CState × List String)
    (st : CState) (url : String) (pg : PageData) : CState × List String :=
  let ps := extract_posts pg.pageMeta pg.listingEls
  match offerPosts cfg st ps with
  | .error stE => (stE, [url])
  | .ok (st2, added) =>
    if 0 < added ∨ 0 < ps.length then
      let r := handle_pagination recur st2 pg
      (r.1, url :: r.2.1)
    else (st2, [url])

/-- `crawl_page`: navigate (a missing page is a caught navigation error),
probe for an article — a fresh in-range article is recorded and the page is
done; a fresh out-of-range article still marks the URL visited but falls
through to the listing phase, as does an article page whose URL was already
visited; a `TypeError` from the range check (offset-aware article date) is
caught by the blanket `except`, abandoning the page with the URL already
marked visited. -/
def crawl_page (cfg : Config) (site : String → Option PageData) :
    Nat → CState → String → CState × List String
  | 0 => fun st _ => (st, [])
  | fuel + 1 => fun st url =>
    match site url with
    | none => (st, [url])
    | some pg =>
      match extract_article_from_page url pg.pageMeta pg.articleInput with
      | some art =>
        if url ∉ st.visited then
          let st1 : CState := { st with visited := url :: st.visited }
          match is_within_date_range cfg art.date with
          | some true => ({ st1 with posts := st1.posts ++ [art] }, [url])
          | some false => crawlListing cfg (crawl_page cfg site fuel) st1 url pg
          | none => (st1, [url])
        else crawlListing cfg (crawl_page cfg site fuel) st url pg
      | none => crawlListing cfg (crawl_page cfg site fuel) st url pg

/-- The fixed section URLs of `explore_archives`. -/
def working_urls : List String :=
  [base_url ++ "/news", base_url ++ "/sports", base_url ++ "/business",
   base_url ++ "/entertainment", base_url ++ "/opinion", base_url ++ "/features"]

/-- The section-URL loop of `explore_archives`: crawl each URL not yet
visited. -/
def sectionsLoop (crawl : CState → String → CState × List String) :
    CState → List String → List String → CState × List String
  | st, tr, [] => (st, tr)
  | st, tr, u :: us =>
    if u ∉ st.visited then
      let r := crawl st u
      sectionsLoop crawl r.1 (tr ++ r.2) us
    else sectionsLoop crawl st tr us

/-- The discovered-URL loop of `explore_archives`, capped at 50 processed
URLs. -/
def discoveredLoop (crawl : CState → String → CState × List String) :
    CState → List String → Nat → List String → CState × List String
  | st, tr, _, [] => (st, tr)
  | st, tr, processed, u :: us =>
    if u ∉ st.visited ∧ processed < 50 then
      let r := crawl st u
      discoveredLoop crawl r.1 (tr ++ r.2) (processed + 1) us
    else discoveredLoop crawl st tr processed us

/-- `explore_archives`: crawl each unvisited section URL, then up to 50
unvisited discovered article URLs.  The discovery scan of the front page is
abstracted as the href list `discoveredHrefs`; as in the source each href is
resolved against the origin, filtered by `is_valid_url` and deduplicated
(set semantics; the set's iteration order is modelled by list order). -/
def explore_archives (cfg : Config) (site : String → Option PageData) (fuel : Nat)
    (discoveredHrefs : List String) (st : CState) : CState × List String :=
  let discovered := (discoveredHrefs.filterMap
    (fun h =>
      let fu := urljoin base_url h
      if is_valid_url (some fu) then some fu else none)).eraseDups
  let s1 := sectionsLoop (crawl_page cfg site fuel) st [] working_urls
  (discoveredLoop (crawl_page cfg site fuel) s1.1 s1.2 0 discovered)

/-- One whole crawl session (`run` up to saving): the main page, then the
archive exploration, starting from empty state. -/
def runSession (cfg : Config) (site : String → Option PageData) (fuel : Nat)
    (discoveredHrefs : List String) : CState :=
  let r1 := crawl_page cfg site fuel ⟨[], []⟩ base_url
  (explore_archives cfg site fuel discoveredHrefs r1.1).1

/-! ### `save_results` and process exit -/

/-- `datetime.min`, the sort key for records without a date. -/
def datetime_min : PyDatetime := ⟨1, 1, 1, 0, 0, 0, 0, none⟩

/-- The sort key comparison of `save_results` (`x.get('date') or
datetime.min`).  The naive comparison `dtLE` suffices here: an offset-aware
date makes `is_within_date_range` raise before the record can be appended, so
the keys a session's sort ever compares are naive (or `datetime.min`). -/
def sortKeyLE (a b : Post) : Bool :=
  dtLE (a.date.getD datetime_min) (b.date.getD datetime_min)

/-- `save_results`: with no collected records it returns early and creates no
file; otherwise it sorts descending by date (stable, dateless records lowest)
and writes the same rows to the JSON and CSV files — the returned list is the
content of both. -/
def save_results (posts : List Post) : Option (List Post) :=
  if posts = [] then none
  else some (insSort (fun a b => sortKeyLE b a) posts)

/-- Exit kinds of the process (`run_crawler.main`). -/
inductive ExitKind where
  | normal
  | interrupted
deriving DecidableEq, Repr

/-- The process surface: `GuardianCrawler.run` awaits the whole crawl and
only then calls `save_results`; a `KeyboardInterrupt` raised during the crawl
propagates out of `asyncio.run` before `save_results` is reached and is
caught in `run_crawler.main`, which just prints a message.  `crawlDone` is
the crawl phase's outcome with the session state at that moment. -/
def runGuardianMain : Bool → CState → ExitKind × Option (List Post) :=
  fun interruptedDuringCrawl st =>
    if interruptedDuringCrawl then (ExitKind.interrupted, none)
    else (ExitKind.normal, save_results st.posts)

/-! ### `handle_infinite_scroll` -/

/-- The scroll loop body: `heights i` is the document height the renderer
reports at its `i`-th evaluation (index 0 is the initial read); each
iteration scrolls once, reads the next height and stops when it equals the
previous one; the fuel is `max_scrolls - scroll_attempts`.  Returns the
number of scroll commands issued. -/
def scrollGo (heights : Nat → Int) : Int → Nat → Nat → Nat
  | _, _, 0 => 0
  | last, idx, n + 1 =>
    if heights idx = last then 1
    else 1 + scrollGo heights (heights idx) (idx + 1) n

/-- `handle_infinite_scroll` with `max_scrolls = 10`. -/
def handle_infinite_scroll (heights : Nat → Int) : Nat :=
  scrollGo heights (heights 0) 1 10

/-! ## Theorems -/

theorem dtLE_refl (a : PyDatetime) : dtLE a a = true := by
  simp [dtLE]

/-- One second before a datetime with a positive year compares strictly
below it. -/
theorem dtLE_pred_self (d : PyDatetime) (hy : 1 ≤ d.year) :
    dtLE d (predSecond d) = false := by
  rcases d with ⟨y, mo, da, h, mi, s, us, tz⟩
  simp only [predSecond]
  split_ifs with h1 h2 h3 h4 h5 <;>
    (simp only [dtLE]
     dsimp only
     simp only [ne_eq] at hy ⊢
     split_ifs <;>
       simp only [decide_eq_false_iff_not, decide_eq_true_eq, not_lt, not_le] <;>
       omega)

/-- Subtracting one second never changes the offset field. -/
theorem predSecond_tz (d : PyDatetime) : (predSecond d).tz = d.tz := by
  simp only [predSecond]
  split_ifs <;> rfl

/-- The session bounds used by the C2 scenario: naive, as the source's
`datetime.now()` bounds are. -/
def cfgC2 : Config := ⟨⟨2010, 9, 1, 0, 0, 0, 0, none⟩, ⟨2025, 9, 1, 0, 0, 0, 0, none⟩⟩

/-- C2 counterexample: the date parsed from the code's own Guardian display
format `'%a, %d %b %Y %H:%M:%S %z'` is offset-aware, and comparing it with
the naive session bounds raises `TypeError` — `is_within_date_range` neither
accepts nor rejects such a record, refuting "accepts a record iff its date is
absent or lies in the closed interval ... for every date d". -/
theorem C2_counterexample :
    parse_date "Fri, 25 Jul 2025 22:58:41 -0400" =
      some ⟨2025, 7, 25, 22, 58, 41, 0, some (-240)⟩ ∧
    is_within_date_range cfgC2 (some ⟨2025, 7, 25, 22, 58, 41, 0, some (-240)⟩) = none := by
  constructor
  · decide
  · decide

/-- C2 (amended): over records whose date is naive — the only ones comparable
with the naive `datetime.now()` bounds — `is_within_date_range` accepts iff
the date is absent or lies in the closed window: `None` is always accepted,
both endpoints are accepted, `start_date` minus one second is rejected, and a
naive date is accepted exactly when it lies between the bounds; a record
whose date carries a UTC offset instead makes the check raise `TypeError`
(no accept/reject verdict; the caller abandons the page). -/
theorem C2_range_inclusive (cfg : Config)
    (hts : cfg.start_date.tz = none) (hte : cfg.end_date.tz = none)
    (hse : dtLE cfg.start_date cfg.end_date = true)
    (hy : 1 ≤ cfg.start_date.year) :
    is_within_date_range cfg none = some true ∧
    is_within_date_range cfg (some cfg.start_date) = some true ∧
    is_within_date_range cfg (some cfg.end_date) = some true ∧
    is_within_date_range cfg (some (predSecond cfg.start_date)) = some false ∧
    (∀ d : PyDatetime, d.tz = none →
      is_within_date_range cfg (some d) =
        some (dtLE cfg.start_date d && dtLE d cfg.end_date)) ∧
    (∀ d : PyDatetime, d.tz ≠ none →
      is_within_date_range cfg (some d) = none) := by
  have hiff : ∀ d : PyDatetime, d.tz = none →
      is_within_date_range cfg (some d) =
        some (dtLE cfg.start_date d && dtLE d cfg.end_date) := by
    intro d hd
    simp only [is_within_date_range, pyDtLE, hts, hte, hd]
    cases hb : dtLE cfg.start_date d <;> simp
  refine ⟨rfl, ?_, ?_, ?_, hiff, ?_⟩
  · rw [hiff cfg.start_date hts, dtLE_refl, hse]
    rfl
  · rw [hiff cfg.end_date hte, dtLE_refl, hse]
    rfl
  · rw [hiff (predSecond cfg.start_date) (by rw [predSecond_tz, hts]),
      dtLE_pred_self cfg.start_date hy]
    rfl
  · intro d hd
    match hdt : d.tz with
    | none => exact absurd hdt hd
    | some o => simp only [is_within_date_range, pyDtLE, hts, hdt]

theorem C2_range_inclusive_witness :
    is_within_date_range cfgC2 none = some true ∧
    is_within_date_range cfgC2 (some ⟨2010, 9, 1, 0, 0, 0, 0, none⟩) = some true ∧
    is_within_date_range cfgC2 (some ⟨2025, 9, 1, 0, 0, 0, 0, none⟩) = some true ∧
    is_within_date_range cfgC2 (some (predSecond ⟨2010, 9, 1, 0, 0, 0, 0, none⟩)) = some false ∧
    is_within_date_range cfgC2 (some ⟨2020, 5, 5, 12, 0, 0, 0, none⟩) =
      some (dtLE cfgC2.start_date ⟨2020, 5, 5, 12, 0, 0, 0, none⟩ &&
            dtLE ⟨2020, 5, 5, 12, 0, 0, 0, none⟩ cfgC2.end_date) ∧
    is_within_date_range cfgC2 (some ⟨2020, 5, 5, 12, 0, 0, 0, some 120⟩) = none := by
  have h := C2_range_inclusive cfgC2 (by decide) (by decide) (by decide) (by decide)
  exact ⟨h.1, h.2.1, h.2.2.1, h.2.2.2.1,
    h.2.2.2.2.1 ⟨2020, 5, 5, 12, 0, 0, 0, none⟩ (by decide),
    h.2.2.2.2.2 ⟨2020, 5, 5, 12, 0, 0, 0, some 120⟩ (by decide)⟩

theorem scrollGo_le (heights : Nat → Int) :
    ∀ (n : Nat) (last : Int) (idx : Nat), scrollGo heights last idx n ≤ n := by
  intro n
  induction n with
  | zero => intro last idx; simp [scrollGo]
  | succ m ih =>
    intro last idx
    simp only [scrollGo]
    split
    · omega
    · have := ih (heights idx) (idx + 1)
      omega

theorem scrollGo_growth (heights : Nat → Int) :
    ∀ (n : Nat) (idx : Nat) (last : Int), heights idx ≠ last →
      (∀ j, idx < j → heights j ≠ heights (j - 1)) →
      scrollGo heights last idx n = n := by
  intro n
  induction n with
  | zero => intro idx last _ _; simp [scrollGo]
  | succ m ih =>
    intro idx last hne hrest
    simp only [scrollGo]
    rw [if_neg hne]
    have h1 : heights (idx + 1) ≠ heights idx := by
      have := hrest (idx + 1) (by omega)
      simpa using this
    rw [ih (idx + 1) (heights idx) h1 (fun j hj => hrest j (by omega))]
    omega

/-- Shifting the height sequence by one absorbs an increment of the read
index. -/
theorem scrollGo_shift (h : Nat → Int) :
    ∀ (n : Nat) (last : Int) (idx : Nat),
      scrollGo h last (idx + 1) n = scrollGo (fun i => h (i + 1)) last idx n := by
  intro n
  induction n with
  | zero => intro last idx; rfl
  | succ m ih =>
    intro last idx
    simp only [scrollGo]
    split
    · rfl
    · rw [ih (h (idx + 1)) (idx + 1)]

theorem scrollGo_stop1 :
    ∀ (k : Nat) (h : Nat → Int) (n : Nat), k < n →
      (∀ i, i < k → h (i + 1) ≠ h i) →
      h (k + 1) = h k →
      scrollGo h (h 0) 1 n = k + 1 := by
  intro k
  induction k with
  | zero =>
    intro h n hn _ hstop
    match n, hn with
    | m + 1, _ =>
      simp only [scrollGo]
      rw [if_pos hstop]
  | succ u ih =>
    intro h n hn hprev hstop
    match n, hn with
    | m + 1, hm =>
      simp only [scrollGo]
      rw [if_neg (hprev 0 (by omega))]
      rw [scrollGo_shift h m (h 1) 1]
      have hih : scrollGo (fun i => h (i + 1)) (h 1) 1 m = u + 1 :=
        ih (fun i => h (i + 1)) m (by omega)
          (fun i hi => hprev (i + 1) (by omega)) hstop
      rw [hih]
      omega

/-- C8: `handle_infinite_scroll` always terminates: it issues at most 10
scroll commands for every sequence of reported heights; it issues exactly 10
when the height strictly grows at every read; and it stops with `k + 1`
scrolls as soon as the `(k + 1)`-st height read repeats the previous one. -/
theorem C8_scroll_bounded :
    (∀ heights : Nat → Int, handle_infinite_scroll heights ≤ 10) ∧
    (∀ heights : Nat → Int, (∀ i, heights i < heights (i + 1)) →
      handle_infinite_scroll heights = 10) ∧
    (∀ (heights : Nat → Int) (k : Nat), k < 10 →
      (∀ i, i < k → heights (i + 1) ≠ heights i) →
      heights (k + 1) = heights k →
      handle_infinite_scroll heights = k + 1) := by
  refine ⟨fun heights => scrollGo_le heights 10 (heights 0) 1, ?_, ?_⟩
  · intro heights hgrow
    unfold handle_infinite_scroll
    apply scrollGo_growth heights 10 1 (heights 0)
    · exact (hgrow 0).ne'
    · intro j hj
      have h2 := hgrow (j - 1)
      have e : j - 1 + 1 = j := by omega
      rw [e] at h2
      exact h2.ne'
  · intro heights k hk hprev hstop
    unfold handle_infinite_scroll
    exact scrollGo_stop1 k heights 10 hk hprev hstop

theorem C8_scroll_bounded_witness :
    handle_infinite_scroll (fun i => (i : Int)) = 10 ∧
    handle_infinite_scroll (fun i => ((min i 2 : Nat) : Int)) = 3 := by
  constructor
  · refine C8_scroll_bounded.2.1 (fun i => (i : Int)) ?_
    intro i
    show ((i : Nat) : Int) < ((i + 1 : Nat) : Int)
    push_cast
    omega
  · exact C8_scroll_bounded.2.2 (fun i => ((min i 2 : Nat) : Int)) 2 (by omega)
      (fun i hi => by interval_cases i <;> decide) (by decide)

/-- C9: the content filter classifies `"By John Smith"` as author-only (its
length is below 30 and it contains the marker `"by "`), so the excerpt loop
rejects it; a fixed 60-character ordinary sentence has trimmed length 60 > 50
and is not author-only, so the loop accepts it. -/
theorem C9_byline_filter :
    is_author_only "By John Smith" = true ∧
    "By John Smith".length < 30 ∧
    strContains (pyStrip (lowerStr "By John Smith")) "by " = true ∧
    contentOk "By John Smith" = false ∧
    is_author_only "The committee approved the new budget for road repairs today" = false ∧
    (pyStrip "The committee approved the new budget for road repairs today").length = 60 ∧
    contentOk "The committee approved the new budget for road repairs today" = true := by
  decide

/-- C10: with zero collected records `save_results` returns before any
sorting or file writing, so no output exists; with at least one record it
produces output. -/
theorem C10_save_empty (ps : List Post) (h : ps ≠ []) :
    save_results ([] : List Post) = none ∧ (save_results ps).isSome = true := by
  refine ⟨rfl, ?_⟩
  unfold save_results
  rw [if_neg h]
  rfl

theorem C10_save_empty_witness :
    save_results ([] : List Post) = none ∧
    (save_results [⟨"A title", "https://www.guardian.co.tt/news/a-6.2.1", none, ""⟩]).isSome = true :=
  C10_save_empty [⟨"A title", "https://www.guardian.co.tt/news/a-6.2.1", none, ""⟩] (by decide)

/-- C3: evaluation at the failing input `"2025-01-02T03:04:05.123Z"` — the
first ISO pattern (bare date-time) matches before the fractional and `Z`
variants can, so the extracted substring is `"2025-01-02T03:04:05"` (fraction
and `Z` dropped) and the result is a naive timestamp (`tz = none`,
`micro = 0`), not a UTC-aware one. -/
theorem C3_iso_z_dropped :
    parse_date "2025-01-02T03:04:05.123Z" =
      some ⟨2025, 1, 2, 3, 4, 5, 0, none⟩ ∧
    isoStage (pyStrip "2025-01-02T03:04:05.123Z").data =
      some ("2025-01-02T03:04:05", ⟨2025, 1, 2, 3, 4, 5, 0, none⟩) := by
  decide

/-- C7: evaluation at the failing input — an element whose only title text is
the single space returned by its anchor, with a valid article href: the
whitespace title survives the truthiness guard, so `extract_post_data`
returns a record whose `title` is the empty string instead of discarding the
candidate. -/
theorem C7_whitespace_title_not_discarded :
    extract_post_data []
      ⟨[none, none, none, none, none, some " "],
       some (some "/news/test-story-6.2.123"), [], []⟩ =
      some ⟨"", "https://www.guardian.co.tt/news/test-story-6.2.123", none, ""⟩ := by
  decide

/-- C6 counterexample: a run interrupted after one record was collected exits
as interrupted with no output written at all — refuting "partial results are
flushed". -/
theorem C6_counterexample :
    runGuardianMain true
      ⟨[⟨"A title", "https://www.guardian.co.tt/news/a-6.2.1", none, ""⟩],
       ["https://www.guardian.co.tt/news/a-6.2.1"]⟩ =
      (ExitKind.interrupted, none) ∧
    ([⟨"A title", "https://www.guardian.co.tt/news/a-6.2.1", none, ""⟩] : List Post) ≠ [] := by
  decide

/-- C6 (amended): a keyboard interrupt during the crawl is caught and the
process exits cleanly, but no records are flushed — `save_results` runs only
after a normally completed crawl, so output exists only for normal exits. -/
theorem C6_amended_interrupt_discards (st : CState) (h : st.posts ≠ []) :
    runGuardianMain true st = (ExitKind.interrupted, none) ∧
    (runGuardianMain false st).2.isSome = true := by
  refine ⟨rfl, ?_⟩
  simp only [runGuardianMain, if_neg Bool.false_ne_true, save_results]
  rw [if_neg h]
  rfl

theorem C6_amended_interrupt_discards_witness :
    runGuardianMain true
      ⟨[⟨"B title", "https://www.guardian.co.tt/news/b-6.2.2", none, ""⟩], []⟩ =
      (ExitKind.interrupted, none) ∧
    (runGuardianMain false
      ⟨[⟨"B title", "https://www.guardian.co.tt/news/b-6.2.2", none, ""⟩], []⟩).2.isSome = true :=
  C6_amended_interrupt_discards
    ⟨[⟨"B title", "https://www.guardian.co.tt/news/b-6.2.2", none, ""⟩], []⟩ (by decide)

/-! ### C4 scenario: an article page whose date is outside the window -/

/-- A window 2010-01-01 .. 2025-01-01. -/
def cfgC4 : Config := ⟨⟨2010, 1, 1, 0, 0, 0, 0, none⟩, ⟨2025, 1, 1, 0, 0, 0, 0, none⟩⟩

def articleUrlC4 : String := "https://www.guardian.co.tt/news/old-story-6.2.100"

def nextUrlC4 : String := "https://www.guardian.co.tt/news/list2"

/-- A listing element on the article page. -/
def listingElC4 : Element :=
  ⟨[some "Another story headline"], some (some "/news/other-6.2.200"), [], []⟩

/-- The article page: classified as an article (long `h1` text), dated
2000-01-01 by page metadata (outside the window), and also carrying one
listing element and one pagination link. -/
def pageC4 : PageData :=
  ⟨[some "2000-01-01"],
   ⟨[some "A sufficiently long headline"], []⟩,
   [[listingElC4]],
   [[⟨some "/news/list2", "Next"⟩]],
   []⟩

def siteC4 : String → Option PageData := fun u => if u = articleUrlC4 then some pageC4 else none

/-- C4 counterexample: the page is classified as an article (the extractor
returns a record), yet because its date lies outside the window `crawl_page`
falls through: the listing element's URL is offered (it ends up in the
visited set) and pagination is discovered and followed (the visit trace
continues to the next page) — refuting "no listing-style link extraction and
no pagination discovery regardless of ... the extracted record's date". -/
theorem C4_counterexample :
    (extract_article_from_page articleUrlC4 pageC4.pageMeta pageC4.articleInput).isSome = true ∧
    is_within_date_range cfgC4
      ((extract_article_from_page articleUrlC4 pageC4.pageMeta pageC4.articleInput).bind Post.date) =
      some false ∧
    (crawl_page cfgC4 siteC4 3 ⟨[], []⟩ articleUrlC4).2 = [articleUrlC4, nextUrlC4] ∧
    "https://www.guardian.co.tt/news/other-6.2.200" ∈
      (crawl_page cfgC4 siteC4 3 ⟨[], []⟩ articleUrlC4).1.visited := by
  refine ⟨by decide, by decide, by decide, by decide⟩

/-- C4 (amended): a page classified as an article short-circuits — one record
is added, and no listing extraction and no pagination happen on it — exactly
when its URL is not yet visited and the extracted record's date is within the
window; otherwise (as the counterexample shows) the crawler falls through to
listing-style extraction and pagination discovery. -/
theorem C4_amended_article_skips_listing (cfg : Config) (site : String → Option PageData)
    (fuel : Nat) (st : CState) (url : String) (pg : PageData) (art : Post)
    (hsite : site url = some pg)
    (hart : extract_article_from_page url pg.pageMeta pg.articleInput = some art)
    (hvis : url ∉ st.visited)
    (hrange : is_within_date_range cfg art.date = some true) :
    crawl_page cfg site (fuel + 1) st url =
      ({ posts := st.posts ++ [art], visited := url :: st.visited }, [url]) := by
  show (match site url with
    | none => (st, [url])
    | some pg => _) = _
  rw [hsite]
  simp only [hart, hrange]
  rw [if_pos hvis]

theorem C4_amended_article_skips_listing_witness :
    crawl_page cfgC4
      (fun u => if u = articleUrlC4 then
        some ⟨[some "2024-06-01"], ⟨[some "A sufficiently long headline"], []⟩,
              [[listingElC4]], [[⟨some "/news/list2", "Next"⟩]], []⟩
      else none)
      3 ⟨[], []⟩ articleUrlC4 =
      ({ posts := [] ++ [⟨"A sufficiently long headline", articleUrlC4,
            some ⟨2024, 6, 1, 0, 0, 0, 0, none⟩, ""⟩],
         visited := articleUrlC4 :: [] }, [articleUrlC4]) :=
  C4_amended_article_skips_listing cfgC4 _ 2 ⟨[], []⟩ articleUrlC4
    ⟨[some "2024-06-01"], ⟨[some "A sufficiently long headline"], []⟩,
     [[listingElC4]], [[⟨some "/news/list2", "Next"⟩]], []⟩
    ⟨"A sufficiently long headline", articleUrlC4, some ⟨2024, 6, 1, 0, 0, 0, 0, none⟩, ""⟩
    (by decide) (by decide) (by decide) (by decide)

/-! ### C5 scenario: a chain of five next-linked listing pages -/

def cfgC5 : Config := ⟨⟨2010, 1, 1, 0, 0, 0, 0, none⟩, ⟨2025, 1, 1, 0, 0, 0, 0, none⟩⟩

/-- The URL of the `i`-th page of the chain. -/
def chainUrl (i : Nat) : String := "https://www.guardian.co.tt/news/list" ++ toString i

/-- The listing element of the `i`-th page (a distinct valid story link). -/
def chainElem (i : Nat) : Element :=
  ⟨[some ("Story headline number " ++ toString i)],
   some (some ("/news/story-" ++ toString i ++ "-6.2.10" ++ toString i)), [], []⟩

/-- The `i`-th page: not an article, one listing element, and a "next" link
to page `i + 1` except on page 5. -/
def chainPage (i : Nat) : PageData :=
  ⟨[], ⟨[], []⟩, [[chainElem i]],
   if i < 5 then [[⟨some ("/news/list" ++ toString (i + 1)), "Next »"⟩]] else [],
   []⟩

def siteC5 : String → Option PageData := fun u =>
  if u = chainUrl 1 then some (chainPage 1)
  else if u = chainUrl 2 then some (chainPage 2)
  else if u = chainUrl 3 then some (chainPage 3)
  else if u = chainUrl 4 then some (chainPage 4)
  else if u = chainUrl 5 then some (chainPage 5)
  else none

/-- C5: on the five-page next-linked chain the traversal's visit trace is
exactly pages 1..5 — each visited once, page 1 never revisited after page 5 —
and, in general, the semantic next pass follows the first accepted match and
evaluates none of the remaining patterns: whenever the first link of the
first pagination selector is accepted and leads to an unvisited URL, the pass
returns that URL whatever the remaining links and selectors contain. -/
theorem C5_pagination_chain :
    ((crawl_page cfgC5 siteC5 6 ⟨[], []⟩ (chainUrl 1)).2 =
      [chainUrl 1, chainUrl 2, chainUrl 3, chainUrl 4, chainUrl 5]) ∧
    (∀ (l : PLink) (ls : List PLink) (lss : List (List PLink))
        (visited : List String) (h : String),
      l.href = some h →
      pagAccept l = true →
      urljoin base_url h ∉ visited →
      findNextLink visited ((l :: ls) :: lss) = some (urljoin base_url h)) := by
  constructor
  · decide
  · intro l ls lss visited h hl hacc hnv
    simp only [findNextLink, findNextLinkInSel, hacc, if_true, hl, Option.getD_some]
    rw [if_pos hnv]

theorem C5_pagination_chain_witness :
    ((crawl_page cfgC5 siteC5 6 ⟨[], []⟩ (chainUrl 1)).2 =
      [chainUrl 1, chainUrl 2, chainUrl 3, chainUrl 4, chainUrl 5]) ∧
    findNextLink ["https://www.guardian.co.tt/other"]
      [[⟨some "/news/page/2", "More stories"⟩, ⟨some "/ignored", "next"⟩],
       [⟨some "9", "numeric link"⟩]] =
      some "https://www.guardian.co.tt/news/page/2" :=
  ⟨C5_pagination_chain.1,
   C5_pagination_chain.2 ⟨some "/news/page/2", "More stories"⟩
     [⟨some "/ignored", "next"⟩] [[⟨some "9", "numeric link"⟩]]
     ["https://www.guardian.co.tt/other"] "/news/page/2"
     rfl (by decide) (by decide)⟩

/-! ### C1: session-wide URL deduplication -/

/-- The dedup invariant: collected records have pairwise-distinct URLs, and
every collected record's URL is already in the visited set. -/
def Inv (st : CState) : Prop :=
  (st.posts.map Post.url).Nodup ∧ ∀ p ∈ st.posts, p.url ∈ st.visited

/-- Appending a record whose URL is fresh (and marking it visited) preserves
the invariant. -/
theorem Inv_append (st : CState) (p : Post) (hInv : Inv st) (hp : p.url ∉ st.visited) :
    Inv ⟨st.posts ++ [p], p.url :: st.visited⟩ := by
  obtain ⟨hnd, hsub⟩ := hInv
  constructor
  · rw [List.map_append, List.map_cons, List.map_nil, List.nodup_append]
    refine ⟨hnd, List.nodup_singleton _, ?_⟩
    intro u hu hu1
    rcases List.mem_map.1 hu with ⟨q, hq, rfl⟩
    rcases List.mem_singleton.1 hu1 with h
    exact hp (h ▸ hsub q hq)
  · intro q hq
    rcases List.mem_append.1 hq with hq | hq
    · exact List.mem_cons_of_mem _ (hsub q hq)
    · rw [List.mem_singleton.1 hq]
      exact List.mem_cons_self _ _

/-- Growing the visited set preserves the invariant. -/
theorem Inv_mono (st : CState) (v : String) (hInv : Inv st) :
    Inv ⟨st.posts, v :: st.visited⟩ :=
  ⟨hInv.1, fun p hp => List.mem_cons_of_mem _ (hInv.2 p hp)⟩

/-- The state carried by an offer-loop outcome: the final state on normal
completion, or the state at the moment the `TypeError` aborted the loop. -/
def offerState : Except CState (CState × Nat) → CState
  | .ok (s, _) => s
  | .error s => s

/-- The offer loop preserves the invariant and only grows the visited set,
whether it completes or aborts on a `TypeError`. -/
theorem offerLoop_inv (cfg : Config) :
    ∀ (ps : List Post) (st : CState) (n : Nat), Inv st →
      Inv (offerState (offerLoop cfg st n ps)) ∧
      st.visited ⊆ (offerState (offerLoop cfg st n ps)).visited := by
  intro ps
  induction ps with
  | nil => intro st n h; exact ⟨h, fun _ hu => hu⟩
  | cons p ps ih =>
    intro st n h
    simp only [offerLoop]
    split
    · next hc =>
      split
      · next hr =>
        have h2 := ih { posts := st.posts ++ [p], visited := p.url :: st.visited } (n + 1)
          (Inv_append st p h hc.2)
        exact ⟨h2.1, fun u hu => h2.2 (List.mem_cons_of_mem _ hu)⟩
      · next hr =>
        have h2 := ih { posts := st.posts, visited := p.url :: st.visited } n
          (Inv_mono st p.url h)
        exact ⟨h2.1, fun u hu => h2.2 (List.mem_cons_of_mem _ hu)⟩
      · next hr =>
        exact ⟨Inv_mono st p.url h, fun u hu => List.mem_cons_of_mem _ hu⟩
    · next hc => exact ih st n h

/-- The numbered-pagination loop preserves the invariant whenever the
recursive visit does. -/
theorem numberedLoop_inv (recur : CState → String → CState × List String)
    (hrec : ∀ st u, Inv st → Inv (recur st u).1 ∧ st.visited ⊆ (recur st u).1.visited) :
    ∀ (prs : List (Nat × String)) (st : CState) (tr : List String), Inv st →
      Inv (numberedLoop recur st tr prs).1 ∧
      st.visited ⊆ (numberedLoop recur st tr prs).1.visited := by
  intro prs
  induction prs with
  | nil => intro st tr h; exact ⟨h, fun _ hu => hu⟩
  | cons pr rest ih =>
    intro st tr h
    simp only [numberedLoop]
    split
    · have h1 := hrec st pr.2 h
      have h2 := ih (recur st pr.2).1 (tr ++ (recur st pr.2).2) h1.1
      exact ⟨h2.1, fun u hu => h2.2 (h1.2 hu)⟩
    · exact ih st tr h

/-- `handle_pagination` preserves the invariant whenever the recursive visit
does. -/
theorem handle_pagination_inv (recur : CState → String → CState × List String)
    (hrec : ∀ st u, Inv st → Inv (recur st u).1 ∧ st.visited ⊆ (recur st u).1.visited)
    (st : CState) (pg : PageData) (h : Inv st) :
    Inv (handle_pagination recur st pg).1 ∧
    st.visited ⊆ (handle_pagination recur st pg).1.visited := by
  unfold handle_pagination
  split
  · next nextUrl _ =>
    have h1 := hrec st nextUrl h
    exact ⟨h1.1, h1.2⟩
  · have h1 := numberedLoop_inv recur hrec
      (insSort pairLE (numberedPairs pg.pageHrefLinks)) st [] h
    exact ⟨h1.1, h1.2⟩

/-- The listing phase preserves the invariant whenever the recursive visit
does. -/
theorem crawlListing_inv (cfg : Config) (recur : CState → String → CState × List String)
    (hrec : ∀ st u, Inv st → Inv (recur st u).1 ∧ st.visited ⊆ (recur st u).1.visited)
    (st : CState) (url : String) (pg : PageData) (h : Inv st) :
    Inv (crawlListing cfg recur st url pg).1 ∧
    st.visited ⊆ (crawlListing cfg recur st url pg).1.visited := by
  simp only [crawlListing, offerPosts]
  have h0 := offerLoop_inv cfg (extract_posts pg.pageMeta pg.listingEls) st 0 h
  split
  · next stE heq =>
    rw [heq] at h0
    exact h0
  · next st2 added heq =>
    rw [heq] at h0
    split
    · have h1 := handle_pagination_inv recur hrec st2 pg h0.1
      exact ⟨h1.1, fun u hu => h1.2 (h0.2 hu)⟩
    · exact h0

/-- A record produced by `extract_article_from_page` carries the page URL. -/
theorem extract_article_url (url : String) (m : List (Option String)) (ai : ArticleInput)
    (p : Post) (h : extract_article_from_page url m ai = some p) : p.url = url := by
  unfold extract_article_from_page at h
  split at h
  · exact Option.noConfusion h
  · split at h
    · exact Option.noConfusion h
    · split at h
      · exact Option.noConfusion h
      · rw [← Option.some.inj h]

/-- `crawl_page` preserves the invariant and only grows the visited set, for
any fuel. -/
theorem crawl_page_inv (cfg : Config) (site : String → Option PageData) :
    ∀ (fuel : Nat) (st : CState) (url : String), Inv st →
      Inv (crawl_page cfg site fuel st url).1 ∧
      st.visited ⊆ (crawl_page cfg site fuel st url).1.visited := by
  intro fuel
  induction fuel with
  | zero => intro st url h; exact ⟨h, fun _ hu => hu⟩
  | succ n ih =>
    intro st url h
    have hrec : ∀ st u, Inv st → Inv (crawl_page cfg site n st u).1 ∧
        st.visited ⊆ (crawl_page cfg site n st u).1.visited :=
      fun st u hh => ih st u hh
    simp only [crawl_page]
    split
    · exact ⟨h, fun _ hu => hu⟩
    · next pg _ =>
      split
      · next art hart =>
        split
        · next hvis =>
          split
          · next hrange =>
            have hu : art.url = url := extract_article_url url pg.pageMeta pg.articleInput art hart
            subst hu
            exact ⟨Inv_append st art h hvis, fun u hu2 => List.mem_cons_of_mem _ hu2⟩
          · next hrange =>
            have h1 := crawlListing_inv cfg (crawl_page cfg site n) hrec
              { posts := st.posts, visited := url :: st.visited } url pg (Inv_mono st url h)
            exact ⟨h1.1, fun u hu => h1.2 (List.mem_cons_of_mem _ hu)⟩
          · next hrange =>
            exact ⟨Inv_mono st url h, fun u hu => List.mem_cons_of_mem _ hu⟩
        · next hvis =>
          exact crawlListing_inv cfg (crawl_page cfg site n) hrec st url pg h
      · exact crawlListing_inv cfg (crawl_page cfg site n) hrec st url pg h

/-- The section loop preserves the invariant. -/
theorem sectionsLoop_inv (crawl : CState → String → CState × List String)
    (hrec : ∀ st u, Inv st → Inv (crawl st u).1 ∧ st.visited ⊆ (crawl st u).1.visited) :
    ∀ (us : List String) (st : CState) (tr : List String), Inv st →
      Inv (sectionsLoop crawl st tr us).1 ∧
      st.visited ⊆ (sectionsLoop crawl st tr us).1.visited := by
  intro us
  induction us with
  | nil => intro st tr h; exact ⟨h, fun _ hu => hu⟩
  | cons u us ih =>
    intro st tr h
    simp only [sectionsLoop]
    split
    · have h1 := hrec st u h
      have h2 := ih (crawl st u).1 (tr ++ (crawl st u).2) h1.1
      exact ⟨h2.1, fun v hv => h2.2 (h1.2 hv)⟩
    · exact ih st tr h

/-- The discovered-URL loop preserves the invariant. -/
theorem discoveredLoop_inv (crawl : CState → String → CState × List String)
    (hrec : ∀ st u, Inv st → Inv (crawl st u).1 ∧ st.visited ⊆ (crawl st u).1.visited) :
    ∀ (us : List String) (st : CState) (tr : List String) (n : Nat), Inv st →
      Inv (discoveredLoop crawl st tr n us).1 ∧
      st.visited ⊆ (discoveredLoop crawl st tr n us).1.visited := by
  intro us
  induction us with
  | nil => intro st tr n h; exact ⟨h, fun _ hu => hu⟩
  | cons u us ih =>
    intro st tr n h
    simp only [discoveredLoop]
    split
    · have h1 := hrec st u h
      have h2 := ih (crawl st u).1 (tr ++ (crawl st u).2) (n + 1) h1.1
      exact ⟨h2.1, fun v hv => h2.2 (h1.2 hv)⟩
    · exact ih st tr n h

/-- C1: over a whole crawl session — the main page, every recursive
pagination visit, and the archive exploration — the collected records'
URLs are pairwise distinct (each distinct URL contributes at most one record
to `self.posts`), and every collected record's URL is in the visited set, so
a candidate whose URL was already accepted, or already visited as an article
page, is never appended again. -/
theorem C1_url_dedup (cfg : Config) (site : String → Option PageData) (fuel : Nat)
    (discoveredHrefs : List String) :
    ((runSession cfg site fuel discoveredHrefs).posts.map Post.url).Nodup ∧
    ∀ p ∈ (runSession cfg site fuel discoveredHrefs).posts,
      p.url ∈ (runSession cfg site fuel discoveredHrefs).visited := by
  have hrec : ∀ st u, Inv st → Inv (crawl_page cfg site fuel st u).1 ∧
      st.visited ⊆ (crawl_page cfg site fuel st u).1.visited :=
    fun st u hh => crawl_page_inv cfg site fuel st u hh
  have h0 : Inv ⟨[], []⟩ := ⟨List.nodup_nil, by intro p hp; cases hp⟩
  have h1 := crawl_page_inv cfg site fuel ⟨[], []⟩ base_url h0
  unfold runSession explore_archives
  have h2 := sectionsLoop_inv (crawl_page cfg site fuel) hrec working_urls
    (crawl_page cfg site fuel ⟨[], []⟩ base_url).1 [] h1.1
  have h3 := discoveredLoop_inv (crawl_page cfg site fuel) hrec
    ((List.filterMap (fun h =>
        if is_valid_url (some (urljoin base_url h)) = true
        then some (urljoin base_url h) else none) discoveredHrefs).eraseDups)
    (sectionsLoop (crawl_page cfg site fuel)
      (crawl_page cfg site fuel ⟨[], []⟩ base_url).1 [] working_urls).1
    (sectionsLoop (crawl_page cfg site fuel)
      (crawl_page cfg site fuel ⟨[], []⟩ base_url).1 [] working_urls).2
    0 h2.1
  exact h3.1

end Guardian
